import Mathlib

/-!
Shallow embedding of the graph-flow executor from
`plugins/graph/src/index.ts` (`defineGraph` and its helpers).

JSON-like runtime values are modelled by `Value`, zod schemas by `Schema`
with a boolean `validate` mirroring `safeParse` success, the node registry
by an association list keyed by node name, and the executor's unbounded
`while (true)` loop by the fuel-indexed `runLoop`, which also records the
sequence of node dispatches and the calls made to `beforeFinish`.
-/

namespace GraphPlugin

/-- Runtime values threaded through the executor: the subset of JS values
the graph code manipulates.  `undefined` models `undefined`, which is what a
missing object property reads as. -/
inductive Value where
  | undefined : Value
  | vNum : Int → Value
  | vBool : Bool → Value
  | vStr : String → Value
  | vObj : List (String × Value) → Value

mutual
/-- zod schemas used by the graph plugin: `z.any()`, `z.number()`,
`z.string()`, `z.boolean()`, `z.literal(b)`, `z.object({...})` and
`.or(...)`. -/
inductive Schema where
  | any : Schema
  | num : Schema
  | str : Schema
  | boolean : Schema
  | litBool : Bool → Schema
  | obj : FieldList → Schema
  | union : Schema → Schema → Schema

/-- The field list of a `z.object({...})` schema. -/
inductive FieldList where
  | nil : FieldList
  | cons : String → Schema → FieldList → FieldList
end

/-- Property lookup on an object's field list; a missing key reads as
`undefined`. -/
def lookupField : List (String × Value) → String → Value
  | [], _ => .undefined
  | (k, v) :: rest, key => if k = key then v else lookupField rest key

/-- `v[key]` in JS: property access, `undefined` on non-objects and missing
keys. -/
def getField : Value → String → Value
  | .vObj fs, key => lookupField fs key
  | _, _ => .undefined

/-- Extract the underlying string of a string value (the executor only uses
this after a successful parse has established the value is a string). -/
def asString : Value → String
  | .vStr s => s
  | _ => ""

mutual
/-- `schema.safeParse(v).success` for the zod subset: `z.any()` accepts
everything (including `undefined`), `z.object` requires an object and
validates each declared field against the property read (extra keys are
ignored, as zod strips them), `.or` succeeds when either branch does. -/
def validate : Schema → Value → Bool
  | .any, _ => true
  | .num, v => match v with | .vNum _ => true | _ => false
  | .str, v => match v with | .vStr _ => true | _ => false
  | .boolean, v => match v with | .vBool _ => true | _ => false
  | .litBool b, v => match v with | .vBool c => b == c | _ => false
  | .obj fields, v =>
      match v with
      | .vObj fs => validateFields fields fs
      | _ => false
  | .union a b, v => validate a v || validate b v

/-- Validate each declared field of a `z.object` schema against the
corresponding property of the object. -/
def validateFields : FieldList → List (String × Value) → Bool
  | .nil, _ => true
  | .cons k s rest, fs => validate s (lookupField fs k) && validateFields rest fs
end

/-- `StateReturnSchema(stateSchema)` from the source:
`z.object({ state: stateSchema, nextNode: z.string() })` — the Continuation
shape. -/
def StateReturnSchema (stateSchema : Schema) : Schema :=
  .obj (.cons "state" stateSchema (.cons "nextNode" .str .nil))

/-- `FlowOutputSchema(stateSchema, outputSchema)` from the source:
`z.object({ state, nextNode }).or(outputSchema)` — the declared output type
of every node. -/
def FlowOutputSchema (stateSchema outputSchema : Schema) : Schema :=
  .union (StateReturnSchema stateSchema) outputSchema

/-- A node body: takes the current state, returns its result or throws. -/
def NodeFn : Type := Value → Except String Value

/-- The closure state of one `defineGraph` call: the optional schemas from
`config`, the node registry, the entrypoint, and the optional
`beforeFinish` hook.  `beforeFinish` either succeeds or throws with a
message. -/
structure Graph where
  stateSchema : Option Schema
  outputSchema : Option Schema
  nodes : List (String × NodeFn)
  entrypoint : Value → Value × String
  beforeFinish : Option (Value → Value → Except String Unit)

/-- Registry lookup `nodes[name]`. -/
def lookupNode : List (String × NodeFn) → String → Option NodeFn
  | [], _ => none
  | (k, f) :: rest, name => if k = name then some f else lookupNode rest name

/-- `addNode`: throws `Node ${name} already exists` when the name is taken,
otherwise stores the node under its name. -/
def addNode (nodes : List (String × NodeFn)) (name : String) (f : NodeFn) :
    Except String (List (String × NodeFn)) :=
  if (lookupNode nodes name).isSome then
    Except.error ("Node " ++ name ++ " already exists")
  else
    Except.ok (nodes ++ [(name, f)])

/-- `delete nodes[name]`. -/
def deleteNode (nodes : List (String × NodeFn)) (name : String) :
    List (String × NodeFn) :=
  nodes.filter (fun p => p.1 != name)

/-- `removeNode` as written in the source: `if (nodes[name]) throw ...;
delete nodes[name]` — it throws exactly when the name IS registered, so the
`delete` only ever runs when there is nothing to delete. -/
def removeNode (nodes : List (String × NodeFn)) (name : String) :
    Except String (List (String × NodeFn)) :=
  if (lookupNode nodes name).isSome then
    Except.error ("Node " ++ name ++ " already exists")
  else
    Except.ok (deleteNode nodes name)

/-- The errors the executor loop can raise. -/
inductive GraphError where
  | unknownNode : String → GraphError
  | nodeError : String → GraphError
  | invalidOutput : String → GraphError
  | finishError : String → GraphError

/-- The message carried by each thrown `Error`, verbatim from the source. -/
def GraphError.message : GraphError → String
  | .unknownNode n => "Node " ++ (n ++ " does not exist")
  | .nodeError m => m
  | .invalidOutput n =>
      "Invalid output: Output of node " ++
        (n ++ " does not satisfy StateSchema or OutputSchema")
  | .finishError m => m

/-- Outcome of a fuel-bounded run: a returned output, a thrown error, or
fuel exhaustion (the real loop is unbounded, so exhaustion stands for a run
that has not finished within the given number of iterations). -/
inductive RunResult where
  | ok : Value → RunResult
  | err : GraphError → RunResult
  | fuelOut : RunResult

/-- Observable trace of a run: each node dispatch `(name, input state)` in
order, each `beforeFinish` call `(state, output)` in order, and the
outcome. -/
structure RunOut where
  dispatches : List (String × Value)
  finishCalls : List (Value × Value)
  result : RunResult

/-- The executor's `while (true)` body, fuel-indexed.  Per iteration:
fail if `currentNode` is unregistered; run the node on the current state;
try the Continuation shape `StateReturnSchema(config.stateSchema ?? z.any())`
first and on success adopt the raw result's `state`/`nextNode` fields and
loop; otherwise try `config.outputSchema ?? z.any()` and on success call
`beforeFinish` (if provided) and return the result; otherwise throw the
invalid-output error naming the current node. -/
def runLoop (g : Graph) : Nat → Value → String → RunOut
  | 0, _, _ => ⟨[], [], .fuelOut⟩
  | fuel + 1, state, currentNode =>
    match lookupNode g.nodes currentNode with
    | none => ⟨[], [], .err (.unknownNode currentNode)⟩
    | some f =>
      match f state with
      | .error e => ⟨[(currentNode, state)], [], .err (.nodeError e)⟩
      | .ok result =>
        if validate (StateReturnSchema (g.stateSchema.getD .any)) result then
          match runLoop g fuel (getField result "state")
              (asString (getField result "nextNode")) with
          | ⟨ds, fc, res⟩ => ⟨(currentNode, state) :: ds, fc, res⟩
        else if validate (g.outputSchema.getD .any) result then
          match g.beforeFinish with
          | none => ⟨[(currentNode, state)], [], .ok result⟩
          | some bf =>
            match bf state result with
            | .ok _ => ⟨[(currentNode, state)], [(state, result)], .ok result⟩
            | .error e =>
              ⟨[(currentNode, state)], [(state, result)], .err (.finishError e)⟩
        else
          ⟨[(currentNode, state)], [], .err (.invalidOutput currentNode)⟩

/-- One graph invocation: run the entrypoint on the input, then enter the
loop at the returned `state`/`nextNode`. -/
def runGraph (g : Graph) (fuel : Nat) (input : Value) : RunOut :=
  runLoop g fuel (g.entrypoint input).1 (g.entrypoint input).2

/-! Concrete graphs used by the testable-property scenarios. -/

/-- The state schema `{count: number}` of the concrete scenarios. -/
def countSchema : Schema := .obj (.cons "count" .num .nil)

/-- The output schema `{done: true}` of the concrete scenarios. -/
def doneSchema : Schema := .obj (.cons "done" (.litBool true) .nil)

/-- The terminal value `{done: true}`. -/
def doneVal : Value := .vObj [("done", .vBool true)]

/-- `state.count`, defaulting to 0 off-shape. -/
def getCount (v : Value) : Int :=
  match getField v "count" with
  | .vNum n => n
  | _ => 0

/-- The `incr` node of the concrete scenario: returns
`{state: {count: s.count+1}, nextNode: "incr"}` while `count < 3`, else
`{done: true}`. -/
def incrNode : NodeFn := fun st =>
  if getCount st < 3 then
    Except.ok (.vObj [("state", .vObj [("count", .vNum (getCount st + 1))]),
      ("nextNode", .vStr "incr")])
  else
    Except.ok doneVal

/-- The concrete scenario graph: `stateShape = {count: number}`,
`outputShape = {done: true}`, entrypoint `{state: {count: 0}, nextNode: "incr"}`. -/
def incrGraph : Graph where
  stateSchema := some countSchema
  outputSchema := some doneSchema
  nodes := [("incr", incrNode)]
  entrypoint := fun _ => (.vObj [("count", .vNum 0)], "incr")
  beforeFinish := none

/-- A node whose result is always a Continuation naming itself. -/
def loopNode : NodeFn := fun st =>
  Except.ok (.vObj [("state", st), ("nextNode", .vStr "loop")])

/-- A graph whose single node always continues to itself: its traversal
never terminates. -/
def selfLoopGraph : Graph where
  stateSchema := none
  outputSchema := some doneSchema
  nodes := [("loop", loopNode)]
  entrypoint := fun input => (input, "loop")
  beforeFinish := none

/-- The `bad` node of the invalid-output scenario: returns `{foo: 1}`. -/
def badNode : NodeFn := fun _ => Except.ok (.vObj [("foo", .vNum 1)])

/-- The invalid-output scenario graph: state requires `count: number`,
output requires `done: true`, and node `bad` satisfies neither. -/
def badGraph : Graph where
  stateSchema := some countSchema
  outputSchema := some doneSchema
  nodes := [("bad", badNode)]
  entrypoint := fun _ => (.vObj [("count", .vNum 0)], "bad")
  beforeFinish := none

/-- A `beforeFinish` hook that always succeeds. -/
def bfFn : Value → Value → Except String Unit := fun _ _ => Except.ok ()

/-- A node that immediately produces the terminal `{done: true}`. -/
def termNode : NodeFn := fun _ => Except.ok doneVal

/-- A one-node graph with a `beforeFinish` hook. -/
def bfGraph : Graph where
  stateSchema := some countSchema
  outputSchema := some doneSchema
  nodes := [("t", termNode)]
  entrypoint := fun _ => (.vObj [("count", .vNum 0)], "t")
  beforeFinish := some bfFn

/-- A node whose result `{state: 1, nextNode: "a"}` validates against both
the Continuation shape (state schema undeclared) and an
accept-any-object output schema. -/
def bothNode : NodeFn := fun _ =>
  Except.ok (.vObj [("state", .vNum 1), ("nextNode", .vStr "a")])

/-- A graph whose node output satisfies both the Continuation shape and the
declared output shape. -/
def bothGraph : Graph where
  stateSchema := none
  outputSchema := some (.obj .nil)
  nodes := [("a", bothNode)]
  entrypoint := fun input => (input, "a")
  beforeFinish := none

/-- A node returning a bare string, matching no object-shaped schema. -/
def strNode : NodeFn := fun _ => Except.ok (.vStr "t")

/-- A graph with `config.outputSchema` omitted. -/
def anyOutGraph : Graph where
  stateSchema := some countSchema
  outputSchema := none
  nodes := [("x", strNode)]
  entrypoint := fun input => (input, "x")
  beforeFinish := none

/-- The identity node body, used for registry-operation scenarios. -/
def idNode : NodeFn := fun v => Except.ok v

/-- A second distinct node body with the same intended name. -/
def constNode : NodeFn := fun _ => Except.ok (.vObj [])

/-- One Continuation-driven step between two dispatch records: the first
node, run on its recorded input state, produced a result that parses as a
Continuation whose `nextNode`/`state` are exactly the second record. -/
def chainStep (g : Graph) (a b : String × Value) : Prop :=
  ∃ f r, lookupNode g.nodes a.1 = some f ∧ f a.2 = Except.ok r ∧
    validate (StateReturnSchema (g.stateSchema.getD .any)) r = true ∧
    getField r "nextNode" = Value.vStr b.1 ∧ getField r "state" = b.2

/-- A dispatch sequence follows the chain of `nextNode` values: every
consecutive pair is linked by `chainStep`, so no dispatch is reordered,
skipped, or invented. -/
def chainConsistent (g : Graph) : List (String × Value) → Prop
  | [] => True
  | [_] => True
  | a :: b :: rest => chainStep g a b ∧ chainConsistent g (b :: rest)

/-! Step equations of the executor loop, one per control path. -/

/-- Loop step: the current node is not registered. -/
theorem runLoop_unknown (g : Graph) {fuel : Nat} {s : Value} {n : String}
    (hn : lookupNode g.nodes n = none) :
    runLoop g (fuel + 1) s n = ⟨[], [], .err (.unknownNode n)⟩ := by
  simp [runLoop, hn]

/-- Loop step: the node itself throws. -/
theorem runLoop_nodeErr (g : Graph) {fuel : Nat} {s : Value} {n : String}
    {f : NodeFn} {e : String}
    (hn : lookupNode g.nodes n = some f) (hf : f s = Except.error e) :
    runLoop g (fuel + 1) s n = ⟨[(n, s)], [], .err (.nodeError e)⟩ := by
  simp [runLoop, hn, hf]

/-- Loop step: the result parses as a Continuation, so the loop adopts the
result's `state` and `nextNode` fields and recurses. -/
theorem runLoop_cont (g : Graph) {fuel : Nat} {s : Value} {n : String}
    {f : NodeFn} {r : Value}
    (hn : lookupNode g.nodes n = some f) (hf : f s = Except.ok r)
    (hc : validate (StateReturnSchema (g.stateSchema.getD .any)) r = true) :
    runLoop g (fuel + 1) s n =
      ⟨(n, s) :: (runLoop g fuel (getField r "state")
          (asString (getField r "nextNode"))).dispatches,
        (runLoop g fuel (getField r "state")
          (asString (getField r "nextNode"))).finishCalls,
        (runLoop g fuel (getField r "state")
          (asString (getField r "nextNode"))).result⟩ := by
  cases hrest : runLoop g fuel (getField r "state") (asString (getField r "nextNode")) with
  | mk ds fc res => simp [runLoop, hn, hf, hc, hrest]

/-- Loop step: Terminal result with no `beforeFinish` hook. -/
theorem runLoop_term_none (g : Graph) {fuel : Nat} {s : Value} {n : String}
    {f : NodeFn} {r : Value}
    (hn : lookupNode g.nodes n = some f) (hf : f s = Except.ok r)
    (hc : validate (StateReturnSchema (g.stateSchema.getD .any)) r = false)
    (ho : validate (g.outputSchema.getD .any) r = true)
    (hbf : g.beforeFinish = none) :
    runLoop g (fuel + 1) s n = ⟨[(n, s)], [], .ok r⟩ := by
  simp [runLoop, hn, hf, hc, ho, hbf]

/-- Loop step: Terminal result, `beforeFinish` succeeds. -/
theorem runLoop_term_ok (g : Graph) {fuel : Nat} {s : Value} {n : String}
    {f : NodeFn} {r : Value} {bf : Value → Value → Except String Unit} {u : Unit}
    (hn : lookupNode g.nodes n = some f) (hf : f s = Except.ok r)
    (hc : validate (StateReturnSchema (g.stateSchema.getD .any)) r = false)
    (ho : validate (g.outputSchema.getD .any) r = true)
    (hbf : g.beforeFinish = some bf) (hb : bf s r = Except.ok u) :
    runLoop g (fuel + 1) s n = ⟨[(n, s)], [(s, r)], .ok r⟩ := by
  simp [runLoop, hn, hf, hc, ho, hbf, hb]

/-- Loop step: Terminal result, `beforeFinish` throws. -/
theorem runLoop_term_err (g : Graph) {fuel : Nat} {s : Value} {n : String}
    {f : NodeFn} {r : Value} {bf : Value → Value → Except String Unit} {m : String}
    (hn : lookupNode g.nodes n = some f) (hf : f s = Except.ok r)
    (hc : validate (StateReturnSchema (g.stateSchema.getD .any)) r = false)
    (ho : validate (g.outputSchema.getD .any) r = true)
    (hbf : g.beforeFinish = some bf) (hb : bf s r = Except.error m) :
    runLoop g (fuel + 1) s n = ⟨[(n, s)], [(s, r)], .err (.finishError m)⟩ := by
  simp [runLoop, hn, hf, hc, ho, hbf, hb]

/-- Loop step: the result parses as neither shape. -/
theorem runLoop_invalid (g : Graph) {fuel : Nat} {s : Value} {n : String}
    {f : NodeFn} {r : Value}
    (hn : lookupNode g.nodes n = some f) (hf : f s = Except.ok r)
    (hc : validate (StateReturnSchema (g.stateSchema.getD .any)) r = false)
    (ho : validate (g.outputSchema.getD .any) r = false) :
    runLoop g (fuel + 1) s n = ⟨[(n, s)], [], .err (.invalidOutput n)⟩ := by
  simp [runLoop, hn, hf, hc, ho]

/-! Structural lemmas about the registry and the loop's trace. -/

/-- Appending a fresh binding makes it findable. -/
theorem lookupNode_append (nodes : List (String × NodeFn)) (name : String)
    (f : NodeFn) (h : lookupNode nodes name = none) :
    lookupNode (nodes ++ [(name, f)]) name = some f := by
  induction nodes with
  | nil => simp [lookupNode]
  | cons p rest ih =>
    obtain ⟨k, g⟩ := p
    by_cases hk : k = name
    · simp [lookupNode, hk] at h
    · simp only [List.cons_append, lookupNode, hk, if_false] at h ⊢
      exact ih h

/-- Deleting an absent key is a no-op. -/
theorem deleteNode_absent (nodes : List (String × NodeFn)) (name : String)
    (h : lookupNode nodes name = none) : deleteNode nodes name = nodes := by
  induction nodes with
  | nil => rfl
  | cons p rest ih =>
    obtain ⟨k, g⟩ := p
    by_cases hk : k = name
    · simp [lookupNode, hk] at h
    · simp only [lookupNode, hk, if_false] at h
      simp only [deleteNode, List.filter]
      rw [show ((k, g).1 != name) = true by simp [hk]]
      have := ih h
      simp only [deleteNode] at this
      rw [this]

/-- A value accepted by `z.string()` is a string value. -/
theorem validate_str_eq (v : Value) (h : validate .str v = true) :
    v = Value.vStr (asString v) := by
  cases v <;> simp [validate, asString] at h ⊢

/-- A value accepted by the Continuation shape carries a string under
`nextNode`. -/
theorem stateReturn_nextNode (s : Schema) (r : Value)
    (h : validate (StateReturnSchema s) r = true) :
    getField r "nextNode" = Value.vStr (asString (getField r "nextNode")) := by
  cases r with
  | vObj fs =>
    simp only [StateReturnSchema, validate, validateFields, getField,
      Bool.and_eq_true, Bool.and_true] at h ⊢
    exact validate_str_eq _ h.2
  | undefined => simp [StateReturnSchema, validate] at h
  | vNum k => simp [StateReturnSchema, validate] at h
  | vBool b => simp [StateReturnSchema, validate] at h
  | vStr t => simp [StateReturnSchema, validate] at h

/-- If the loop records any dispatch at all, the first one is the node and
state it was entered with. -/
theorem runLoop_head (g : Graph) (fuel : Nat) (s : Value) (n : String) :
    (runLoop g fuel s n).dispatches = [] ∨
      ∃ t, (runLoop g fuel s n).dispatches = (n, s) :: t := by
  cases fuel with
  | zero => exact Or.inl rfl
  | succ fuel =>
    cases hl : lookupNode g.nodes n with
    | none => rw [runLoop_unknown g hl]; exact Or.inl rfl
    | some f =>
      cases hf : f s with
      | error e => rw [runLoop_nodeErr g hl hf]; exact Or.inr ⟨[], rfl⟩
      | ok r =>
        cases hc : validate (StateReturnSchema (g.stateSchema.getD .any)) r with
        | true => rw [runLoop_cont g hl hf hc]; exact Or.inr ⟨_, rfl⟩
        | false =>
          cases ho : validate (g.outputSchema.getD .any) r with
          | false => rw [runLoop_invalid g hl hf hc ho]; exact Or.inr ⟨[], rfl⟩
          | true =>
            cases hbf : g.beforeFinish with
            | none => rw [runLoop_term_none g hl hf hc ho hbf]; exact Or.inr ⟨[], rfl⟩
            | some bf =>
              cases hb : bf s r with
              | ok u => rw [runLoop_term_ok g hl hf hc ho hbf hb]; exact Or.inr ⟨[], rfl⟩
              | error m => rw [runLoop_term_err g hl hf hc ho hbf hb]; exact Or.inr ⟨[], rfl⟩

/-- With fuel left and the entry node registered, the first recorded
dispatch is that node with the entry state. -/
theorem runLoop_head_pos (g : Graph) (fuel : Nat) (s : Value) (n : String)
    (hreg : (lookupNode g.nodes n).isSome = true) :
    (runLoop g (fuel + 1) s n).dispatches.head? = some (n, s) := by
  cases hl : lookupNode g.nodes n with
  | none => rw [hl] at hreg; cases hreg
  | some f =>
    cases hf : f s with
    | error e => rw [runLoop_nodeErr g hl hf]; rfl
    | ok r =>
      cases hc : validate (StateReturnSchema (g.stateSchema.getD .any)) r with
      | true => rw [runLoop_cont g hl hf hc]; rfl
      | false =>
        cases ho : validate (g.outputSchema.getD .any) r with
        | false => rw [runLoop_invalid g hl hf hc ho]; rfl
        | true =>
          cases hbf : g.beforeFinish with
          | none => rw [runLoop_term_none g hl hf hc ho hbf]; rfl
          | some bf =>
            cases hb : bf s r with
            | ok u => rw [runLoop_term_ok g hl hf hc ho hbf hb]; rfl
            | error m => rw [runLoop_term_err g hl hf hc ho hbf hb]; rfl

/-- Every dispatch sequence the loop records follows the chain of
`nextNode` values the node results produced. -/
theorem runLoop_chain (g : Graph) : ∀ (fuel : Nat) (s : Value) (n : String),
    chainConsistent g (runLoop g fuel s n).dispatches := by
  intro fuel
  induction fuel with
  | zero => intro s n; exact trivial
  | succ fuel ih =>
    intro s n
    cases hl : lookupNode g.nodes n with
    | none => rw [runLoop_unknown g hl]; exact trivial
    | some f =>
      cases hf : f s with
      | error e => rw [runLoop_nodeErr g hl hf]; exact trivial
      | ok r =>
        cases hc : validate (StateReturnSchema (g.stateSchema.getD .any)) r with
        | false =>
          cases ho : validate (g.outputSchema.getD .any) r with
          | false => rw [runLoop_invalid g hl hf hc ho]; exact trivial
          | true =>
            cases hbf : g.beforeFinish with
            | none => rw [runLoop_term_none g hl hf hc ho hbf]; exact trivial
            | some bf =>
              cases hb : bf s r with
              | ok u => rw [runLoop_term_ok g hl hf hc ho hbf hb]; exact trivial
              | error m => rw [runLoop_term_err g hl hf hc ho hbf hb]; exact trivial
        | true =>
          rw [runLoop_cont g hl hf hc]
          have hchain := ih (getField r "state") (asString (getField r "nextNode"))
          rcases runLoop_head g fuel (getField r "state")
              (asString (getField r "nextNode")) with hd | ⟨t, hd⟩
          · rw [hd]; exact trivial
          · rw [hd]
            rw [hd] at hchain
            exact ⟨⟨f, r, hl, hf, hc, stateReturn_nextNode _ r hc, rfl⟩, hchain⟩

/-- Master description of `beforeFinish` behaviour: either the hook was
never called (and the run neither returned a value nor failed with a
finalization error), or it was called exactly once, on the pair that either
became the return value (hook succeeded) or was discarded for the hook's
error (hook threw). -/
theorem runLoop_finish_spec (g : Graph) (bf : Value → Value → Except String Unit)
    (hbf : g.beforeFinish = some bf) :
    ∀ (fuel : Nat) (s : Value) (n : String),
      ((runLoop g fuel s n).finishCalls = [] ∧
        (∀ out, (runLoop g fuel s n).result ≠ RunResult.ok out) ∧
        (∀ m, (runLoop g fuel s n).result ≠ RunResult.err (GraphError.finishError m))) ∨
      (∃ st o, (runLoop g fuel s n).finishCalls = [(st, o)] ∧
        ((bf st o = Except.ok () ∧ (runLoop g fuel s n).result = RunResult.ok o) ∨
         (∃ m, bf st o = Except.error m ∧
           (runLoop g fuel s n).result = RunResult.err (GraphError.finishError m)))) := by
  intro fuel
  induction fuel with
  | zero =>
    intro s n
    exact Or.inl ⟨rfl, fun out h => by simp [runLoop] at h,
      fun m h => by simp [runLoop] at h⟩
  | succ fuel ih =>
    intro s n
    cases hl : lookupNode g.nodes n with
    | none =>
      rw [runLoop_unknown g hl]
      exact Or.inl ⟨rfl, fun out h => by simp at h, fun m h => by simp at h⟩
    | some f =>
      cases hf : f s with
      | error e =>
        rw [runLoop_nodeErr g hl hf]
        exact Or.inl ⟨rfl, fun out h => by simp at h, fun m h => by simp at h⟩
      | ok r =>
        cases hc : validate (StateReturnSchema (g.stateSchema.getD .any)) r with
        | true =>
          rw [runLoop_cont g hl hf hc]
          exact ih (getField r "state") (asString (getField r "nextNode"))
        | false =>
          cases ho : validate (g.outputSchema.getD .any) r with
          | false =>
            rw [runLoop_invalid g hl hf hc ho]
            exact Or.inl ⟨rfl, fun out h => by simp at h, fun m h => by simp at h⟩
          | true =>
            cases hb : bf s r with
            | ok u =>
              cases u
              rw [runLoop_term_ok g hl hf hc ho hbf hb]
              exact Or.inr ⟨s, r, rfl, Or.inl ⟨hb, rfl⟩⟩
            | error m =>
              rw [runLoop_term_err g hl hf hc ho hbf hb]
              exact Or.inr ⟨s, r, rfl, Or.inr ⟨m, hb, rfl⟩⟩

/-! The claims. -/

/-- C1: at every traversal step the executor tries the Continuation shape
`{state, nextNode}` (built from the declared state shape, or accept-anything
if undeclared) first: when a registered node's result validates against it,
the loop adopts the result's `state` and `nextNode` and continues as a run
dispatched at that next node — even when the same result also validates
against the graph's `outputShape`. -/
theorem continuation_precedence (g : Graph) (fuel : Nat) (s : Value) (n : String)
    (f : NodeFn) (r : Value)
    (hn : lookupNode g.nodes n = some f)
    (hr : f s = Except.ok r)
    (hc : validate (StateReturnSchema (g.stateSchema.getD .any)) r = true)
    (ho : validate (g.outputSchema.getD .any) r = true) :
    runLoop g (fuel + 1) s n =
      ⟨(n, s) :: (runLoop g fuel (getField r "state")
          (asString (getField r "nextNode"))).dispatches,
        (runLoop g fuel (getField r "state")
          (asString (getField r "nextNode"))).finishCalls,
        (runLoop g fuel (getField r "state")
          (asString (getField r "nextNode"))).result⟩ :=
  runLoop_cont g hn hr hc

/-- C1 witness: in `bothGraph` the node result validates against both the
Continuation shape and the output shape, yet the run continues (exhausting
the remaining fuel) instead of terminating with the result. -/
theorem continuation_precedence_witness :
    lookupNode bothGraph.nodes "a" = some bothNode ∧
    bothNode Value.undefined =
      Except.ok (Value.vObj [("state", Value.vNum 1), ("nextNode", Value.vStr "a")]) ∧
    validate (StateReturnSchema (bothGraph.stateSchema.getD .any))
      (Value.vObj [("state", Value.vNum 1), ("nextNode", Value.vStr "a")]) = true ∧
    validate (bothGraph.outputSchema.getD .any)
      (Value.vObj [("state", Value.vNum 1), ("nextNode", Value.vStr "a")]) = true ∧
    runLoop bothGraph 1 Value.undefined "a" =
      ⟨[("a", Value.undefined)], [], RunResult.fuelOut⟩ :=
  ⟨rfl, rfl, rfl, rfl,
    continuation_precedence bothGraph 0 Value.undefined "a" bothNode
      (Value.vObj [("state", Value.vNum 1), ("nextNode", Value.vStr "a")])
      rfl rfl rfl rfl⟩

/-- C2: at every traversal step where the node's result fails the
Continuation parse but validates against the declared `outputShape`, the
invocation dispatches no further node, and (the `beforeFinish` hook
permitting) resolves to exactly that result value. -/
theorem terminal_resolution (g : Graph) (fuel : Nat) (s : Value) (n : String)
    (f : NodeFn) (r : Value)
    (hn : lookupNode g.nodes n = some f)
    (hr : f s = Except.ok r)
    (hc : validate (StateReturnSchema (g.stateSchema.getD .any)) r = false)
    (ho : validate (g.outputSchema.getD .any) r = true) :
    (runLoop g (fuel + 1) s n).dispatches = [(n, s)] ∧
    ((∀ bf, g.beforeFinish = some bf → bf s r = Except.ok ()) →
      (runLoop g (fuel + 1) s n).result = RunResult.ok r) := by
  cases hbf : g.beforeFinish with
  | none =>
    rw [runLoop_term_none g hn hr hc ho hbf]
    exact ⟨rfl, fun _ => rfl⟩
  | some bf =>
    cases hb : bf s r with
    | ok u =>
      cases u
      rw [runLoop_term_ok g hn hr hc ho hbf hb]
      exact ⟨rfl, fun _ => rfl⟩
    | error m =>
      rw [runLoop_term_err g hn hr hc ho hbf hb]
      refine ⟨rfl, fun hall => ?_⟩
      have hcontra := hall bf rfl
      rw [hb] at hcontra
      exact Except.noConfusion hcontra

/-- C2 witness: `incr` at `{count: 3}` returns `{done: true}`, which fails
the Continuation parse, passes the output parse, and is returned with no
further dispatch. -/
theorem terminal_resolution_witness :
    lookupNode incrGraph.nodes "incr" = some incrNode ∧
    incrNode (Value.vObj [("count", Value.vNum 3)]) = Except.ok doneVal ∧
    validate (StateReturnSchema (incrGraph.stateSchema.getD .any)) doneVal = false ∧
    validate (incrGraph.outputSchema.getD .any) doneVal = true ∧
    (runLoop incrGraph 1 (Value.vObj [("count", Value.vNum 3)]) "incr").dispatches =
      [("incr", Value.vObj [("count", Value.vNum 3)])] ∧
    (runLoop incrGraph 1 (Value.vObj [("count", Value.vNum 3)]) "incr").result =
      RunResult.ok doneVal :=
  ⟨rfl, rfl, rfl, rfl,
    (terminal_resolution incrGraph 0 (Value.vObj [("count", Value.vNum 3)]) "incr"
      incrNode doneVal rfl rfl rfl rfl).1,
    (terminal_resolution incrGraph 0 (Value.vObj [("count", Value.vNum 3)]) "incr"
      incrNode doneVal rfl rfl rfl rfl).2
      (fun bf h => Option.noConfusion h)⟩

/-- C3: when the entrypoint yields `{state: s0, nextNode: n0}` with `n0`
registered, the first dispatched node is `n0` with input `s0`; the whole
dispatch sequence follows the chain of `nextNode` values (no node
reordered or skipped); and the concrete `incr` scenario dispatches `incr`
four times and returns `{done: true}`. -/
theorem dispatch_chain (g : Graph) (input s0 : Value) (n0 : String) (fuel : Nat)
    (hentry : g.entrypoint input = (s0, n0))
    (hreg : (lookupNode g.nodes n0).isSome = true)
    (hfuel : 0 < fuel) :
    (runGraph g fuel input).dispatches.head? = some (n0, s0) ∧
    chainConsistent g (runGraph g fuel input).dispatches ∧
    ((runGraph incrGraph 10 (Value.vObj [])).dispatches.map Prod.fst =
        ["incr", "incr", "incr", "incr"] ∧
      (runGraph incrGraph 10 (Value.vObj [])).result = RunResult.ok doneVal) := by
  refine ⟨?_, ?_, rfl, rfl⟩
  · unfold runGraph
    rw [hentry]
    cases fuel with
    | zero => exact absurd hfuel (lt_irrefl 0)
    | succ fuel => exact runLoop_head_pos g fuel s0 n0 hreg
  · unfold runGraph
    exact runLoop_chain g fuel (g.entrypoint input).1 (g.entrypoint input).2

/-- C3 witness: the `incr` scenario itself — entrypoint `{state: {count: 0},
nextNode: "incr"}` with `incr` registered. -/
theorem dispatch_chain_witness :
    incrGraph.entrypoint (Value.vObj []) =
      (Value.vObj [("count", Value.vNum 0)], "incr") ∧
    (lookupNode incrGraph.nodes "incr").isSome = true ∧
    (0 : Nat) < 10 ∧
    ((runGraph incrGraph 10 (Value.vObj [])).dispatches.head? =
        some ("incr", Value.vObj [("count", Value.vNum 0)]) ∧
      chainConsistent incrGraph (runGraph incrGraph 10 (Value.vObj [])).dispatches ∧
      ((runGraph incrGraph 10 (Value.vObj [])).dispatches.map Prod.fst =
          ["incr", "incr", "incr", "incr"] ∧
        (runGraph incrGraph 10 (Value.vObj [])).result = RunResult.ok doneVal)) :=
  ⟨rfl, rfl, by decide,
    dispatch_chain incrGraph (Value.vObj []) (Value.vObj [("count", Value.vNum 0)])
      "incr" 10 rfl rfl (by decide)⟩

/-- C4: with a `beforeFinish` hook installed, a run that returns a value
called the hook exactly once, on that exact output (and the hook
succeeded); a hook call that throws turns the run into a finalization
error instead of a return; and runs ending any other way (other errors,
or fuel exhaustion) never called the hook. -/
theorem beforeFinish_once (g : Graph) (bf : Value → Value → Except String Unit)
    (fuel : Nat) (s : Value) (n : String) (hbf : g.beforeFinish = some bf) :
    (∀ out, (runLoop g fuel s n).result = RunResult.ok out →
      ((runLoop g fuel s n).finishCalls.length = 1 ∧
        ∀ p, p ∈ (runLoop g fuel s n).finishCalls →
          p.2 = out ∧ bf p.1 out = Except.ok ())) ∧
    (∀ st o m, (st, o) ∈ (runLoop g fuel s n).finishCalls →
      bf st o = Except.error m →
      (runLoop g fuel s n).result = RunResult.err (GraphError.finishError m)) ∧
    (∀ e, (runLoop g fuel s n).result = RunResult.err e →
      (∀ m, e ≠ GraphError.finishError m) → (runLoop g fuel s n).finishCalls = []) ∧
    ((runLoop g fuel s n).result = RunResult.fuelOut →
      (runLoop g fuel s n).finishCalls = []) := by
  rcases runLoop_finish_spec g bf hbf fuel s n with ⟨hfc, hok, _⟩ | ⟨st, o, hfc, hcase⟩
  · refine ⟨?_, ?_, ?_, ?_⟩
    · intro out h; exact absurd h (hok out)
    · intro st o m hmem; rw [hfc] at hmem; simp at hmem
    · intro e _ _; exact hfc
    · intro _; exact hfc
  · rcases hcase with ⟨hb, hres⟩ | ⟨m, hb, hres⟩
    · refine ⟨?_, ?_, ?_, ?_⟩
      · intro out h
        rw [hres] at h
        injection h with hoo
        subst hoo
        refine ⟨by rw [hfc]; rfl, ?_⟩
        intro p hp
        rw [hfc] at hp
        simp only [List.mem_singleton] at hp
        subst hp
        exact ⟨rfl, hb⟩
      · intro st2 o2 m hmem hberr
        rw [hfc] at hmem
        simp only [List.mem_singleton, Prod.mk.injEq] at hmem
        rcases hmem with ⟨h1, h2⟩
        subst h1; subst h2
        rw [hb] at hberr
        exact Except.noConfusion hberr
      · intro e he _
        rw [hres] at he
        exact absurd he (by simp)
      · intro hfo
        rw [hres] at hfo
        exact absurd hfo (by simp)
    · refine ⟨?_, ?_, ?_, ?_⟩
      · intro out h
        rw [hres] at h
        exact absurd h (by simp)
      · intro st2 o2 m2 hmem hberr
        rw [hfc] at hmem
        simp only [List.mem_singleton, Prod.mk.injEq] at hmem
        rcases hmem with ⟨h1, h2⟩
        subst h1; subst h2
        rw [hb] at hberr
        injection hberr with hmm
        rw [hres, hmm]
      · intro e he hne
        rw [hres] at he
        injection he with hee
        exact absurd hee.symm (hne m)
      · intro hfo
        rw [hres] at hfo
        exact absurd hfo (by simp)

/-- C4 witness: `bfGraph` returns `{done: true}` and its hook was called
exactly once. -/
theorem beforeFinish_once_witness :
    bfGraph.beforeFinish = some bfFn ∧
    (runLoop bfGraph 2 Value.undefined "t").result = RunResult.ok doneVal ∧
    (runLoop bfGraph 2 Value.undefined "t").finishCalls.length = 1 :=
  ⟨rfl, rfl,
    ((beforeFinish_once bfGraph bfFn 2 Value.undefined "t" rfl).1 doneVal rfl).1⟩

/-- C5: when a node's result validates against neither the Continuation
shape nor the declared `outputShape`, the run fails with the invalid-output
error, whose message contains the offending node's name, with no further
dispatch and no `beforeFinish` call. -/
theorem invalid_output_error (g : Graph) (fuel : Nat) (s : Value) (n : String)
    (f : NodeFn) (r : Value)
    (hn : lookupNode g.nodes n = some f)
    (hr : f s = Except.ok r)
    (hc : validate (StateReturnSchema (g.stateSchema.getD .any)) r = false)
    (ho : validate (g.outputSchema.getD .any) r = false) :
    runLoop g (fuel + 1) s n =
      ⟨[(n, s)], [], RunResult.err (GraphError.invalidOutput n)⟩ ∧
    (GraphError.invalidOutput n).message =
      "Invalid output: Output of node " ++
        (n ++ " does not satisfy StateSchema or OutputSchema") :=
  ⟨runLoop_invalid g hn hr hc ho, rfl⟩

/-- C5 witness: node `bad` returns `{foo: 1}` under state shape
`{count: number}` and output shape `{done: true}` — the run fails naming
`"bad"`. -/
theorem invalid_output_error_witness :
    lookupNode badGraph.nodes "bad" = some badNode ∧
    badNode (Value.vObj [("count", Value.vNum 0)]) =
      Except.ok (Value.vObj [("foo", Value.vNum 1)]) ∧
    validate (StateReturnSchema (badGraph.stateSchema.getD .any))
      (Value.vObj [("foo", Value.vNum 1)]) = false ∧
    validate (badGraph.outputSchema.getD .any)
      (Value.vObj [("foo", Value.vNum 1)]) = false ∧
    runLoop badGraph 1 (Value.vObj [("count", Value.vNum 0)]) "bad" =
      ⟨[("bad", Value.vObj [("count", Value.vNum 0)])], [],
        RunResult.err (GraphError.invalidOutput "bad")⟩ ∧
    (GraphError.invalidOutput "bad").message =
      "Invalid output: Output of node " ++
        ("bad" ++ " does not satisfy StateSchema or OutputSchema") :=
  ⟨rfl, rfl, rfl, rfl,
    (invalid_output_error badGraph 0 (Value.vObj [("count", Value.vNum 0)]) "bad"
      badNode (Value.vObj [("foo", Value.vNum 1)]) rfl rfl rfl rfl).1,
    (invalid_output_error badGraph 0 (Value.vObj [("count", Value.vNum 0)]) "bad"
      badNode (Value.vObj [("foo", Value.vNum 1)]) rfl rfl rfl rfl).2⟩

/-- C6: when the current `nextNode` has no registered entry, the run fails
with the unknown-node error, dispatches no node for that step, and never
calls `beforeFinish`. -/
theorem unknown_node_error (g : Graph) (fuel : Nat) (s : Value) (n : String)
    (hn : lookupNode g.nodes n = none) :
    runLoop g (fuel + 1) s n =
      ⟨[], [], RunResult.err (GraphError.unknownNode n)⟩ :=
  runLoop_unknown g hn

/-- C6 witness: dispatching to the unregistered name `"nope"`. -/
theorem unknown_node_error_witness :
    lookupNode badGraph.nodes "nope" = none ∧
    runLoop badGraph 3 Value.undefined "nope" =
      ⟨[], [], RunResult.err (GraphError.unknownNode "nope")⟩ :=
  ⟨rfl, unknown_node_error badGraph 2 Value.undefined "nope" rfl⟩

/-- C7: `removeNode(name)` throws `Node ${name} already exists` exactly
when the name is currently registered, and silently returns the registry
unchanged when the name is absent — it can only fail when there is
something to remove. -/
theorem removeNode_spec (nodes : List (String × NodeFn)) (name : String) :
    ((lookupNode nodes name).isSome = true →
      removeNode nodes name =
        Except.error ("Node " ++ name ++ " already exists")) ∧
    (lookupNode nodes name = none → removeNode nodes name = Except.ok nodes) := by
  constructor
  · intro h
    simp [removeNode, h]
  · intro h
    simp [removeNode, h, deleteNode_absent nodes name h]

/-- C7 witness: removing the registered `"a"` throws; removing from an
empty registry is a no-op. -/
theorem removeNode_spec_witness :
    (lookupNode [("a", idNode)] "a").isSome = true ∧
    removeNode [("a", idNode)] "a" =
      Except.error ("Node " ++ "a" ++ " already exists") ∧
    lookupNode ([] : List (String × NodeFn)) "a" = none ∧
    removeNode ([] : List (String × NodeFn)) "a" = Except.ok [] :=
  ⟨rfl, (removeNode_spec [("a", idNode)] "a").1 rfl,
    rfl, (removeNode_spec [] "a").2 rfl⟩

/-- C8: adding a node under a fresh name succeeds; adding a second node
under the same name fails with the duplicate-node error, and the first
node's registration is still mapped to that name. -/
theorem addNode_duplicate (nodes : List (String × NodeFn)) (name : String)
    (f f' : NodeFn) (h : lookupNode nodes name = none) :
    addNode nodes name f = Except.ok (nodes ++ [(name, f)]) ∧
    addNode (nodes ++ [(name, f)]) name f' =
      Except.error ("Node " ++ name ++ " already exists") ∧
    lookupNode (nodes ++ [(name, f)]) name = some f := by
  have hl := lookupNode_append nodes name f h
  refine ⟨?_, ?_, hl⟩
  · simp [addNode, h]
  · simp [addNode, hl]

/-- C8 witness: registering `"a"` twice. -/
theorem addNode_duplicate_witness :
    lookupNode ([] : List (String × NodeFn)) "a" = none ∧
    addNode [] "a" idNode = Except.ok [("a", idNode)] ∧
    addNode [("a", idNode)] "a" constNode =
      Except.error ("Node " ++ "a" ++ " already exists") ∧
    lookupNode [("a", idNode)] "a" = some idNode :=
  ⟨rfl, (addNode_duplicate [] "a" idNode constNode rfl).1,
    (addNode_duplicate [] "a" idNode constNode rfl).2.1,
    (addNode_duplicate [] "a" idNode constNode rfl).2.2⟩

/-- C9: the loop has no built-in step or cycle limit: on `selfLoopGraph`,
whose node always continues to itself, every fuel bound is exhausted after
exactly that many dispatches — the unbounded source loop diverges, which is
why the embedding threads explicit fuel. -/
theorem unbounded_self_loop (fuel : Nat) (st : Value) :
    (runLoop selfLoopGraph fuel st "loop").result = RunResult.fuelOut ∧
    (runLoop selfLoopGraph fuel st "loop").dispatches.length = fuel := by
  induction fuel generalizing st with
  | zero => exact ⟨rfl, rfl⟩
  | succ fuel ih =>
    have hl : lookupNode selfLoopGraph.nodes "loop" = some loopNode := rfl
    have hf : loopNode st =
        Except.ok (Value.vObj [("state", st), ("nextNode", Value.vStr "loop")]) := rfl
    have hc : validate (StateReturnSchema (selfLoopGraph.stateSchema.getD .any))
        (Value.vObj [("state", st), ("nextNode", Value.vStr "loop")]) = true := rfl
    rw [runLoop_cont selfLoopGraph hl hf hc]
    have hst : getField (Value.vObj [("state", st), ("nextNode", Value.vStr "loop")])
        "state" = st := rfl
    have hnn : asString (getField
        (Value.vObj [("state", st), ("nextNode", Value.vStr "loop")]) "nextNode") =
        "loop" := rfl
    rw [hst, hnn]
    rcases ih st with ⟨h1, h2⟩
    exact ⟨h1, by simpa using h2⟩

/-- C10: with `config.outputSchema` omitted, the terminal check falls back
to accept-anything, so the invalid-output branch is unreachable: the run
can never fail with an invalid-output error. -/
theorem no_invalid_output_without_schema (g : Graph) (fuel : Nat) (s : Value)
    (n : String) (h : g.outputSchema = none) :
    (∀ r, validate (g.outputSchema.getD .any) r = true) ∧
    (∀ m, (runLoop g fuel s n).result ≠ RunResult.err (GraphError.invalidOutput m)) := by
  have hany : ∀ r, validate (g.outputSchema.getD .any) r = true := by
    intro r; rw [h]; rfl
  refine ⟨hany, ?_⟩
  induction fuel generalizing s n with
  | zero =>
    intro m hm
    simp [runLoop] at hm
  | succ fuel ih =>
    intro m hm
    cases hl : lookupNode g.nodes n with
    | none => rw [runLoop_unknown g hl] at hm; simp at hm
    | some f =>
      cases hf : f s with
      | error e => rw [runLoop_nodeErr g hl hf] at hm; simp at hm
      | ok r =>
        cases hc : validate (StateReturnSchema (g.stateSchema.getD .any)) r with
        | true =>
          rw [runLoop_cont g hl hf hc] at hm
          exact ih (getField r "state") (asString (getField r "nextNode")) m hm
        | false =>
          have ho := hany r
          cases hbf : g.beforeFinish with
          | none => rw [runLoop_term_none g hl hf hc ho hbf] at hm; simp at hm
          | some bf =>
            cases hb : bf s r with
            | ok u => rw [runLoop_term_ok g hl hf hc ho hbf hb] at hm; simp at hm
            | error m2 => rw [runLoop_term_err g hl hf hc ho hbf hb] at hm; simp at hm

/-- C10 witness: `anyOutGraph` omits the output schema; its node's bare
string result is accepted as a Terminal, never an invalid-output error. -/
theorem no_invalid_output_witness :
    anyOutGraph.outputSchema = none ∧
    validate (anyOutGraph.outputSchema.getD .any) (Value.vStr "q") = true ∧
    (runLoop anyOutGraph 3 Value.undefined "x").result ≠
      RunResult.err (GraphError.invalidOutput "x") :=
  ⟨rfl,
    (no_invalid_output_without_schema anyOutGraph 3 Value.undefined "x" rfl).1
      (Value.vStr "q"),
    (no_invalid_output_without_schema anyOutGraph 3 Value.undefined "x" rfl).2 "x"⟩

end GraphPlugin
